import Mathlib

/-!
Verification of the go-netcat transfer engine (src/main.go).

The embedding models the two engines `TransferStreams` and `TransferPackets`
and the per-direction copy loops they launch.  Network reads are modelled as
oracles: a list of read events (payload bytes, sender address, error), and
write outcomes as a function from the write-attempt index to the number of
bytes the destination reports written plus an optional error.  Goroutine
effects (channel messages, log lines, performed writes) are collected in
result records so that theorems can speak about them.
-/

set_option autoImplicit false

namespace GoNetcat

/-- A byte value (Go `byte`). -/
abbrev Byte := Nat

/-- A network address (Go `net.Addr`); a nil interface value is `Option.none`. -/
abbrev Addr := String

/-- src/main.go line 13: `BufferLimit = 2<<16 - 1`. -/
def BufferLimit : Nat := 2 <<< 16 - 1

/-- src/main.go line 15: `UDPDisconnectSequence = "~."` as bytes (tilde, period). -/
def UDPDisconnectSequence : List Byte := [126, 46]

/-- src/main.go line 62: `buf := make([]byte, BufferLimit)`, the per-iteration
transfer buffer of the datagram copy loop. -/
def transferBuf : List Byte := List.replicate BufferLimit 0

/-- Error values returned by reads and writes.  `eof` is Go `io.EOF`;
`shortWrite` and `invalidWrite` are the errors `io.Copy` produces itself. -/
inductive IOErr where
  | eof
  | shortWrite
  | invalidWrite
  | other (msg : String)
deriving DecidableEq

/-- src/main.go lines 19-22: the `Progress` struct sent on the rendezvous
channel.  Zero values of the omitted fields are `none` and `0`. -/
structure Progress where
  remoteAddr : Option Addr
  bytes : Nat
deriving DecidableEq

/-- Go slice expression `b[lo:hi]`.  Out-of-range bounds (in particular a
negative `hi`, as arises from `buf[0:n-1]` with `n = 0`) are a runtime panic,
modelled as `none`. -/
def goSlice (b : List Byte) (lo hi : Int) : Option (List Byte) :=
  if 0 ≤ lo ∧ lo ≤ hi ∧ hi ≤ (b.length : Int) then
    some ((b.take hi.toNat).drop lo.toNat)
  else
    none

/-- src/main.go line 87: `string(buf[0:n-1]) == UDPDisconnectSequence` for a
read of `data` (so `n = data.length`; for `n ≥ 1` the slice of the reused
buffer equals the slice of the freshly read unit).  `none` models the Go
slice-bounds panic when `n = 0`. -/
def markerCheck (data : List Byte) : Option Bool :=
  (goSlice data 0 ((data.length : Int) - 1)).map
    (fun s => decide (s = UDPDisconnectSequence))

/-- One read event delivered by a read oracle: the bytes placed into the
buffer, the sender address reported by `ReadFrom` (ignored on the plain
`Read` path), and the error returned. -/
structure ReadEvt where
  data : List Byte
  addr : Option Addr
  err : Option IOErr
deriving DecidableEq

/-- Outcome of one write attempt: bytes reported written and the error. -/
structure WriteRes where
  n : Nat
  err : Option IOErr
deriving DecidableEq

/-- Destination of a performed write: `WriteTo` with an explicit address
(src/main.go line 94) or the endpoint's own bound addressing (line 96). -/
inductive Dest where
  | toAddr (a : Option Addr)
  | bound
deriving DecidableEq

/-- Record of one write performed by the datagram copy loop. -/
structure Send where
  payload : List Byte
  dest : Dest
  ret : Nat
  err : Option IOErr
deriving DecidableEq

/-- Static configuration of one datagram copy-loop direction:
whether the reader is a `*net.UDPConn` (line 70), whether that reader's
`RemoteAddr()` is nil (line 74), and whether the writer is a `*net.UDPConn`
with nil `RemoteAddr()` (line 92). -/
structure LoopCfg where
  rUdp : Bool
  rRemoteNil : Bool
  wUdpUnbound : Bool
deriving DecidableEq

/-- Observable effects of one datagram copy-loop run: channel messages sent
(address reports and, on normal loop exit, the final byte-count report),
error log lines `(ra, err)`, performed writes, the final value of the `bytes`
accumulator and of the loop variable `ra`. -/
structure LoopOut where
  msgs : List Progress
  logs : List (Option Addr × IOErr)
  sends : List Send
  bytes : Nat
  raFinal : Option Addr
deriving DecidableEq

/-- Result of running a datagram copy loop against a finite read oracle:
`finished` means the loop broke out and sent its final byte-count report
(line 104); `panicked` models the Go slice-bounds panic at line 87;
`starved` means the oracle was exhausted with the loop still running
(the loop would block on its next read). -/
inductive LoopRes where
  | finished (out : LoopOut)
  | panicked (out : LoopOut)
  | starved (out : LoopOut)
deriving DecidableEq

/-- The effect record of a loop result. -/
def LoopRes.out : LoopRes → LoopOut
  | .finished o => o
  | .panicked o => o
  | .starved o => o

/-- Whether the loop terminated normally (reached line 104). -/
def LoopRes.isFinished : LoopRes → Bool
  | .finished _ => true
  | .panicked _ => false
  | .starved _ => false

/-- Prefix the effects of a later part of a run with the messages and sends
of the current iteration. -/
def LoopRes.withPre (m : List Progress) (s : List Send) : LoopRes → LoopRes
  | .finished o => .finished ⟨m ++ o.msgs, o.logs, s ++ o.sends, o.bytes, o.raFinal⟩
  | .panicked o => .panicked ⟨m ++ o.msgs, o.logs, s ++ o.sends, o.bytes, o.raFinal⟩
  | .starved o => .starved ⟨m ++ o.msgs, o.logs, s ++ o.sends, o.bytes, o.raFinal⟩

/-- src/main.go lines 56-105: the `copy` closure of `TransferPackets`.
`writes` is the write-outcome oracle, indexed by write attempt; `wIdx` is the
index of the next write; `ra` and `bytes` are the loop variables.  Per
iteration: read (lines 70-80, with the one-shot address learning of lines
74-77 emitting an address-only `Progress`), read-error check (81-86, `io.EOF`
not logged), disconnect-marker check (87-89), write (92-97) and byte
accounting (98-102, `bytes` is a `uint64`). -/
def copyLoop (cfg : LoopCfg) (writes : Nat → WriteRes) :
    List ReadEvt → Nat → Option Addr → Nat → LoopRes
  | [], _, ra, bytes => .starved ⟨[], [], [], bytes, ra⟩
  | e :: rest, wIdx, ra, bytes =>
    let learn := cfg.rUdp && cfg.rRemoteNil && ra.isNone
    let ra1 := if learn then e.addr else ra
    let amsgs : List Progress := if learn then [⟨e.addr, 0⟩] else []
    match e.err with
    | some er =>
        .finished ⟨amsgs ++ [⟨none, bytes⟩],
          if er = IOErr.eof then [] else [(ra1, er)], [], bytes, ra1⟩
    | none =>
      match markerCheck e.data with
      | none => .panicked ⟨amsgs, [], [], bytes, ra1⟩
      | some true => .finished ⟨amsgs ++ [⟨none, bytes⟩], [], [], bytes, ra1⟩
      | some false =>
        let wr := writes wIdx
        let destination := if cfg.wUdpUnbound then Dest.toAddr ra1 else Dest.bound
        let snd : Send := ⟨e.data, destination, wr.n, wr.err⟩
        match wr.err with
        | some er =>
            .finished ⟨amsgs ++ [⟨none, bytes⟩], [(ra1, er)], [snd], bytes, ra1⟩
        | none =>
            (copyLoop cfg writes rest (wIdx + 1) ra1
              ((bytes + wr.n) % 2 ^ 64)).withPre amsgs [snd]

/-- The address-only progress reports among a list of channel messages
(a final byte-count report has a nil `remoteAddr`). -/
def addrReports (l : List Progress) : List Progress :=
  l.filter (fun p => p.remoteAddr.isSome)

/-- Total bytes of the successful writes in a list of performed writes. -/
def successfulBytes (l : List Send) : Nat :=
  l.foldr (fun s acc => match s.err with | none => s.ret + acc | some _ => acc) 0

/-- One read event of a stream reader: the chunk placed into the buffer and
the error returned alongside it. -/
structure StreamEvt where
  data : List Byte
  err : Option IOErr
deriving DecidableEq

/-- Result of `io.Copy` against a finite read oracle: `done` carries the
`written` total it returns, the error it returns (`none` after a plain EOF),
and the list of per-write written-byte counts; `starved` means the oracle was
exhausted with the copy still running. -/
inductive CopyRes where
  | done (written : Nat) (err : Option IOErr) (rets : List Nat)
  | starved (written : Nat) (rets : List Nat)
deriving DecidableEq

/-- Whether `io.Copy` returned. -/
def CopyRes.isDone : CopyRes → Bool
  | .done _ _ _ => true
  | .starved _ _ => false

/-- Account one performed write of `nw` bytes at the front of a copy run. -/
def CopyRes.addWritten (nw : Nat) : CopyRes → CopyRes
  | .done w e r => .done (nw + w) e (nw :: r)
  | .starved w r => .starved (nw + w) (nw :: r)

/-- src/main.go line 34: `io.Copy(w, r)`, modelled after the standard
library's `copyBuffer` loop: read a chunk; if bytes were read, write them
(`written += nw`, stopping on a write error, an invalid write count or a
short write); then stop on the read error (a plain `io.EOF` is returned as a
nil error). -/
def ioCopy (writes : Nat → WriteRes) : List StreamEvt → Nat → CopyRes
  | [], _ => .starved 0 []
  | e :: rest, wIdx =>
    let nr := e.data.length
    if 0 < nr then
      let w := writes wIdx
      let nw := if nr < w.n then 0 else w.n
      let ew := if nr < w.n then some IOErr.invalidWrite else w.err
      match ew with
      | some er => .done nw (some er) [nw]
      | none =>
        if nr ≠ nw then
          .done nw (some IOErr.shortWrite) [nw]
        else
          match e.err with
          | some er => .done nw (if er = IOErr.eof then none else some er) [nw]
          | none => (ioCopy writes rest (wIdx + 1)).addWritten nw
    else
      match e.err with
      | some er => .done 0 (if er = IOErr.eof then none else some er) []
      | none => ioCopy writes rest wIdx

/-- Effects of one stream copy goroutine (the `copy` closure of
`TransferStreams`, src/main.go lines 29-39): the error log lines it printed
and the `Progress` it sent on the channel (`none` when `io.Copy` never
returned, i.e. the goroutine is still blocked). -/
structure StreamCopyOut where
  logs : List (Addr × IOErr)
  report : Option Progress
deriving DecidableEq

/-- src/main.go lines 29-39: run `io.Copy`, log a non-nil error with the
connection's remote address, then send `Progress{bytes: uint64(n)}`. -/
def streamCopy (remoteAddr : Addr) (reads : List StreamEvt)
    (writes : Nat → WriteRes) : StreamCopyOut :=
  match ioCopy writes reads 0 with
  | .done n err _ =>
      ⟨match err with | some er => [(remoteAddr, er)] | none => [],
       some ⟨none, n % 2 ^ 64⟩⟩
  | .starved _ _ => ⟨[], none⟩

/-- src/main.go lines 25-48: `TransferStreams` launches the two copy
goroutines (`con → stdout` and `stdin → con`) and blocks until it has
received both `Progress` reports from the channel; it returns them (the log
lines at 45 and 47 name whichever report arrived first as the received side).
`none` models the orchestrator still blocked because a goroutine never
reported. -/
def TransferStreams (remoteAddr : Addr)
    (conReads : List StreamEvt) (stdoutWrites : Nat → WriteRes)
    (stdinReads : List StreamEvt) (conWrites : Nat → WriteRes) :
    Option (Progress × Progress) :=
  let a := streamCopy remoteAddr conReads stdoutWrites
  let b := streamCopy remoteAddr stdinReads conWrites
  match a.report, b.report with
  | some pa, some pb => some (pa, pb)
  | _, _ => none

/-- Orchestrator events of one `TransferPackets` invocation, in program
order: goroutine launches (lines 108 and 115, with the `ra` argument passed),
the receive of the address-only report (line 111), and the return after both
final reports were received. -/
inductive PEvent where
  | launchInbound (ra : Option Addr)
  | recvAddr (p : Progress)
  | launchOutbound (ra : Option Addr)
  | ret
deriving DecidableEq

/-- Result of one `TransferPackets` invocation: the orchestrator event trace,
whether the call returned (it blocks until two byte-count reports arrive
after the loops are launched), both loop results (`outRes = none` when the
outbound goroutine was never launched because the address-only report never
arrived), and the `ra` value passed to the outbound loop. -/
structure PacketsRun where
  trace : List PEvent
  returned : Bool
  inRes : LoopRes
  outRes : Option LoopRes
  raUsed : Option Addr
deriving DecidableEq

/-- Whether the outbound loop was launched and terminated normally. -/
def PacketsRun.outFinished (r : PacketsRun) : Bool :=
  match r.outRes with
  | some o => o.isFinished
  | none => false

/-- src/main.go lines 51-121: `TransferPackets`.  `raInit` is
`con.RemoteAddr()` (line 107): `some` in dial mode, `none` in listen mode.
The inbound goroutine (`con → stdout`) reads through the `ReadFrom` path and
learns the peer address when both the connection and `ra` have none; the
outbound goroutine (`stdin → con`) reads through the plain `Read` path and
writes with `WriteTo ra` exactly when the connection has no remote address.
In listen mode the orchestrator first blocks for the address-only report
(line 111) — only the inbound goroutine is running, so that receive takes the
inbound loop's first message — and only then launches the outbound goroutine
with the learned address.  The call returns once two further channel messages
are available (lines 117-120); the loops' remaining messages are counted for
that availability. -/
def TransferPackets (raInit : Option Addr)
    (conReads : List ReadEvt) (stdoutWrites : Nat → WriteRes)
    (stdinReads : List ReadEvt) (conWrites : Nat → WriteRes) : PacketsRun :=
  let inCfg : LoopCfg := ⟨true, raInit.isNone, false⟩
  let outCfg : LoopCfg := ⟨false, false, raInit.isNone⟩
  let inRes := copyLoop inCfg stdoutWrites conReads 0 raInit 0
  match raInit with
  | some a =>
    let outRes := copyLoop outCfg conWrites stdinReads 0 (some a) 0
    let avail := inRes.out.msgs.length + outRes.out.msgs.length
    ⟨[.launchInbound (some a), .launchOutbound (some a)] ++
       (if 2 ≤ avail then [.ret] else []),
     decide (2 ≤ avail), inRes, some outRes, some a⟩
  | none =>
    match inRes.out.msgs with
    | [] => ⟨[.launchInbound none], false, inRes, none, none⟩
    | p :: restMsgs =>
      let ra := p.remoteAddr
      let outRes := copyLoop outCfg conWrites stdinReads 0 ra 0
      let avail := restMsgs.length + outRes.out.msgs.length
      ⟨[.launchInbound none, .recvAddr p, .launchOutbound ra] ++
         (if 2 ≤ avail then [.ret] else []),
       decide (2 ≤ avail), inRes, some outRes, ra⟩

/-! ## Helper lemmas -/

theorem out_withPre (m : List Progress) (s : List Send) (r : LoopRes) :
    (r.withPre m s).out =
      ⟨m ++ r.out.msgs, r.out.logs, s ++ r.out.sends, r.out.bytes, r.out.raFinal⟩ := by
  cases r <;> rfl

theorem isFinished_withPre (m : List Progress) (s : List Send) (r : LoopRes) :
    (r.withPre m s).isFinished = r.isFinished := by
  cases r <;> rfl

/-- When the reader is not a UDP connection, or the session address is
already set, the learning branch of the copy loop never fires: `ra` is
final, the only channel message is the final byte-count report of a normal
exit, and every write goes to the destination fixed by the configuration. -/
theorem copyLoop_noLearn (cfg : LoopCfg) (writes : Nat → WriteRes)
    (reads : List ReadEvt) (wIdx : Nat) (ra : Option Addr) (bytes : Nat)
    (h : cfg.rUdp = false ∨ ra.isSome = true) :
    (copyLoop cfg writes reads wIdx ra bytes).out.msgs =
      (if (copyLoop cfg writes reads wIdx ra bytes).isFinished then
        [⟨none, (copyLoop cfg writes reads wIdx ra bytes).out.bytes⟩] else []) ∧
    (copyLoop cfg writes reads wIdx ra bytes).out.raFinal = ra ∧
    ∀ s ∈ (copyLoop cfg writes reads wIdx ra bytes).out.sends,
      s.dest = (if cfg.wUdpUnbound then Dest.toAddr ra else Dest.bound) := by
  have hlearn : (cfg.rUdp && cfg.rRemoteNil && ra.isNone) = false := by
    rcases h with h | h
    · simp [h]
    · rcases Option.isSome_iff_exists.mp h with ⟨a, rfl⟩
      simp
  induction reads generalizing wIdx bytes with
  | nil => simp [copyLoop, LoopRes.out, LoopRes.isFinished]
  | cons e rest ih =>
    simp only [copyLoop, hlearn, if_false, Bool.false_eq_true]
    cases e.err with
    | some er => simp [LoopRes.out, LoopRes.isFinished]
    | none =>
      cases markerCheck e.data with
      | none => simp [LoopRes.out, LoopRes.isFinished]
      | some b =>
        cases b with
        | true => simp [LoopRes.out, LoopRes.isFinished]
        | false =>
          cases hw : (writes wIdx).err with
          | some er => simp [hw, LoopRes.out, LoopRes.isFinished]
          | none =>
            simp only [hw, out_withPre, isFinished_withPre]
            rcases ih (wIdx + 1) ((bytes + (writes wIdx).n) % 2 ^ 64) with
              ⟨h1, h2, h3⟩
            refine ⟨by simpa using h1, h2, ?_⟩
            intro s hs
            simp only [List.mem_append, List.mem_singleton] at hs
            rcases hs with rfl | hs
            · rfl
            · exact h3 s hs

/-- A unit whose content, excluding its final byte, equals the disconnect
marker must be exactly three bytes long, and the marker comparison accepts
it. -/
theorem markerCheck_of_take (data : List Byte)
    (hm : data.take (data.length - 1) = UDPDisconnectSequence) :
    markerCheck data = some true := by
  have hlen : data.length = 3 := by
    have hl := congrArg List.length hm
    simp only [List.length_take, UDPDisconnectSequence, List.length_cons,
      List.length_nil] at hl
    omega
  have h2 : data.take 2 = UDPDisconnectSequence := by
    rw [hlen] at hm
    simpa using hm
  simp [markerCheck, goSlice, hlen, h2]

/-- src/main.go lines 87-89, stated on the comparison's value: when the
marker comparison yields true (and the read succeeded), the loop breaks at
once with no write and no log. -/
theorem copyLoop_markerTrue_head (cfg : LoopCfg) (writes : Nat → WriteRes)
    (e : ReadEvt) (rest : List ReadEvt) (wIdx : Nat) (ra : Option Addr) (bytes : Nat)
    (hne : e.err = none) (hm : markerCheck e.data = some true) :
    copyLoop cfg writes (e :: rest) wIdx ra bytes =
      .finished ⟨(if cfg.rUdp && cfg.rRemoteNil && ra.isNone
          then [⟨e.addr, 0⟩] else []) ++ [⟨none, bytes⟩], [], [], bytes,
        if cfg.rUdp && cfg.rRemoteNil && ra.isNone then e.addr else ra⟩ := by
  simp only [copyLoop, hne, hm]

/-- src/main.go lines 87-89: a read unit matching the disconnect marker
breaks the loop at once — final report sent, nothing written, nothing
logged, the byte count unchanged. -/
theorem copyLoop_marker_head (cfg : LoopCfg) (writes : Nat → WriteRes)
    (e : ReadEvt) (rest : List ReadEvt) (wIdx : Nat) (ra : Option Addr) (bytes : Nat)
    (hne : e.err = none)
    (hm : e.data.take (e.data.length - 1) = UDPDisconnectSequence) :
    copyLoop cfg writes (e :: rest) wIdx ra bytes =
      .finished ⟨(if cfg.rUdp && cfg.rRemoteNil && ra.isNone
          then [⟨e.addr, 0⟩] else []) ++ [⟨none, bytes⟩], [], [], bytes,
        if cfg.rUdp && cfg.rRemoteNil && ra.isNone then e.addr else ra⟩ := by
  simp only [copyLoop, hne, markerCheck_of_take e.data hm]

/-- src/main.go lines 81-86: a failed read breaks the loop at once — the
address learning of lines 74-77 has already happened, an `io.EOF` is not
logged, any other error is logged with the current `ra`, nothing is written
and the final report is sent. -/
theorem copyLoop_readErr_head (cfg : LoopCfg) (writes : Nat → WriteRes)
    (e : ReadEvt) (rest : List ReadEvt) (wIdx : Nat) (ra : Option Addr)
    (bytes : Nat) (er : IOErr) (he : e.err = some er) :
    copyLoop cfg writes (e :: rest) wIdx ra bytes =
      .finished ⟨(if cfg.rUdp && cfg.rRemoteNil && ra.isNone
          then [⟨e.addr, 0⟩] else []) ++ [⟨none, bytes⟩],
        if er = IOErr.eof then []
          else [(if cfg.rUdp && cfg.rRemoteNil && ra.isNone then e.addr else ra, er)],
        [], bytes,
        if cfg.rUdp && cfg.rRemoteNil && ra.isNone then e.addr else ra⟩ := by
  simp only [copyLoop, he]

/-- A finished datagram copy loop accounts exactly the bytes of its
successful writes (as a `uint64`), and its final channel message is the
byte-count report. -/
theorem copyLoop_finished_bytes (cfg : LoopCfg) (writes : Nat → WriteRes)
    (reads : List ReadEvt) :
    ∀ (wIdx : Nat) (ra : Option Addr) (bytes : Nat) (out : LoopOut),
      bytes < 2 ^ 64 →
      copyLoop cfg writes reads wIdx ra bytes = .finished out →
      out.bytes = (bytes + successfulBytes out.sends) % 2 ^ 64 ∧
      ∃ pre, out.msgs = pre ++ [⟨none, out.bytes⟩] := by
  induction reads with
  | nil =>
    intro wIdx ra bytes out _ h
    exact absurd h (by simp [copyLoop])
  | cons e rest ih =>
    intro wIdx ra bytes out hb h
    simp only [copyLoop] at h
    cases he : e.err with
    | some er =>
      simp only [he, LoopRes.finished.injEq] at h
      subst h
      refine ⟨by simp [successfulBytes]; omega, ⟨_, rfl⟩⟩
    | none =>
      simp only [he] at h
      cases hmk : markerCheck e.data with
      | none =>
        simp only [hmk] at h
        exact LoopRes.noConfusion h
      | some b =>
        cases b with
        | true =>
          simp only [hmk, LoopRes.finished.injEq] at h
          subst h
          refine ⟨by simp [successfulBytes]; omega, ⟨_, rfl⟩⟩
        | false =>
          simp only [hmk] at h
          cases hw : (writes wIdx).err with
          | some er =>
            simp only [hw, LoopRes.finished.injEq] at h
            subst h
            refine ⟨by simp [successfulBytes]; omega, ⟨_, rfl⟩⟩
          | none =>
            simp only [hw] at h
            cases hrec : copyLoop cfg writes rest (wIdx + 1)
                (if cfg.rUdp && cfg.rRemoteNil && ra.isNone then e.addr else ra)
                ((bytes + (writes wIdx).n) % 2 ^ 64) with
            | panicked o => rw [hrec] at h; simp [LoopRes.withPre] at h
            | starved o => rw [hrec] at h; simp [LoopRes.withPre] at h
            | finished o =>
              rw [hrec] at h
              simp only [LoopRes.withPre, LoopRes.finished.injEq] at h
              subst h
              rcases ih (wIdx + 1) _ _ o (Nat.mod_lt _ (by norm_num)) hrec with
                ⟨hbytes, pre, hmsgs⟩
              constructor
              · simp only [successfulBytes] at hbytes ⊢
                simp only [List.singleton_append, List.foldr_cons]
                omega
              · exact ⟨_, by rw [hmsgs, ← List.append_assoc]⟩

/-- In listen mode the inbound loop's first read always runs the learning
branch: its first channel message is the address-only report carrying the
first sender address, and no later message is an address report; exactly one
further message (the final byte-count report) follows when and only when the
loop terminates normally. -/
theorem copyLoop_listen_first (writes : Nat → WriteRes) (e : ReadEvt)
    (rest : List ReadEvt) (A : Addr) (ha : e.addr = some A) :
    ∃ t, (copyLoop ⟨true, true, false⟩ writes (e :: rest) 0 none 0).out.msgs =
        ⟨some A, 0⟩ :: t ∧
      t.length = (if (copyLoop ⟨true, true, false⟩ writes (e :: rest) 0 none 0).isFinished
        then 1 else 0) ∧
      addrReports t = [] := by
  simp only [copyLoop, Option.isNone_none, Bool.and_self, if_true]
  cases e.err with
  | some er =>
    exact ⟨[⟨none, 0⟩], by simp [ha, LoopRes.out, LoopRes.isFinished, addrReports]⟩
  | none =>
    cases markerCheck e.data with
    | none => exact ⟨[], by simp [ha, LoopRes.out, LoopRes.isFinished, addrReports]⟩
    | some b =>
      cases b with
      | true =>
        exact ⟨[⟨none, 0⟩], by simp [ha, LoopRes.out, LoopRes.isFinished, addrReports]⟩
      | false =>
        cases hw : (writes 0).err with
        | some er =>
          exact ⟨[⟨none, 0⟩], by simp [ha, LoopRes.out, LoopRes.isFinished, addrReports]⟩
        | none =>
          rcases copyLoop_noLearn ⟨true, true, false⟩ writes rest 1 e.addr
              ((0 + (writes 0).n) % 2 ^ 64) (Or.inr (by simp [ha])) with ⟨h1, _, _⟩
          refine ⟨(copyLoop ⟨true, true, false⟩ writes rest 1 e.addr
              ((0 + (writes 0).n) % 2 ^ 64)).out.msgs, ?_, ?_, ?_⟩
          · simp [out_withPre, ha]
          · rw [h1]
            simp only [isFinished_withPre]
            split <;> simp_all
          · rw [h1]
            split <;> simp [addrReports]

/-- Unfolding of `TransferPackets` in listen mode, given the inbound loop's
message list. -/
theorem TransferPackets_listen_eq (conReads : List ReadEvt)
    (stdoutWrites : Nat → WriteRes) (stdinReads : List ReadEvt)
    (conWrites : Nat → WriteRes) (p : Progress) (t : List Progress)
    (h : (copyLoop ⟨true, true, false⟩ stdoutWrites conReads 0 none 0).out.msgs = p :: t) :
    TransferPackets none conReads stdoutWrites stdinReads conWrites =
      ⟨[.launchInbound none, .recvAddr p, .launchOutbound p.remoteAddr] ++
         (if 2 ≤ t.length + (copyLoop ⟨false, false, true⟩ conWrites stdinReads 0
             p.remoteAddr 0).out.msgs.length then [.ret] else []),
       decide (2 ≤ t.length + (copyLoop ⟨false, false, true⟩ conWrites stdinReads 0
             p.remoteAddr 0).out.msgs.length),
       copyLoop ⟨true, true, false⟩ stdoutWrites conReads 0 none 0,
       some (copyLoop ⟨false, false, true⟩ conWrites stdinReads 0 p.remoteAddr 0),
       p.remoteAddr⟩ := by
  simp only [TransferPackets, Option.isNone_none, Option.isNone_some, h]

/-- Unfolding of `TransferPackets` in dial mode. -/
theorem TransferPackets_dial_eq (a : Addr) (conReads : List ReadEvt)
    (stdoutWrites : Nat → WriteRes) (stdinReads : List ReadEvt)
    (conWrites : Nat → WriteRes) :
    TransferPackets (some a) conReads stdoutWrites stdinReads conWrites =
      ⟨[.launchInbound (some a), .launchOutbound (some a)] ++
         (if 2 ≤ (copyLoop ⟨true, false, false⟩ stdoutWrites conReads 0 (some a) 0).out.msgs.length +
             (copyLoop ⟨false, false, false⟩ conWrites stdinReads 0 (some a) 0).out.msgs.length
          then [.ret] else []),
       decide (2 ≤ (copyLoop ⟨true, false, false⟩ stdoutWrites conReads 0 (some a) 0).out.msgs.length +
             (copyLoop ⟨false, false, false⟩ conWrites stdinReads 0 (some a) 0).out.msgs.length),
       copyLoop ⟨true, false, false⟩ stdoutWrites conReads 0 (some a) 0,
       some (copyLoop ⟨false, false, false⟩ conWrites stdinReads 0 (some a) 0),
       some a⟩ := by
  simp only [TransferPackets, Option.isNone_some]

/-! ## Claim theorems -/

/-- Claim C1: a datagram unit whose content, excluding its final byte,
equals the two-byte disconnect marker makes the copy loop that read it
terminate normally without writing the unit to its destination and without
logging or raising it as an error. -/
theorem c1_marker_terminates_silently (cfg : LoopCfg) (writes : Nat → WriteRes)
    (e : ReadEvt) (rest : List ReadEvt) (wIdx : Nat) (ra : Option Addr) (bytes : Nat)
    (hne : e.err = none)
    (hm : e.data.take (e.data.length - 1) = UDPDisconnectSequence) :
    (copyLoop cfg writes (e :: rest) wIdx ra bytes).isFinished = true ∧
    (copyLoop cfg writes (e :: rest) wIdx ra bytes).out.sends = [] ∧
    (copyLoop cfg writes (e :: rest) wIdx ra bytes).out.logs = [] := by
  rw [copyLoop_marker_head cfg writes e rest wIdx ra bytes hne hm]
  exact ⟨rfl, rfl, rfl⟩

/-- Witness for C1: a listen-mode inbound loop reading the three-byte unit
tilde-period-newline finishes with no write and no log. -/
theorem c1_witness :
    (copyLoop ⟨true, true, false⟩ (fun _ => ⟨0, none⟩)
      [⟨[126, 46, 10], some "192.0.2.1:9000", none⟩] 0 none 0).isFinished = true ∧
    (copyLoop ⟨true, true, false⟩ (fun _ => ⟨0, none⟩)
      [⟨[126, 46, 10], some "192.0.2.1:9000", none⟩] 0 none 0).out.sends = [] ∧
    (copyLoop ⟨true, true, false⟩ (fun _ => ⟨0, none⟩)
      [⟨[126, 46, 10], some "192.0.2.1:9000", none⟩] 0 none 0).out.logs = [] :=
  c1_marker_terminates_silently ⟨true, true, false⟩ (fun _ => ⟨0, none⟩)
    ⟨[126, 46, 10], some "192.0.2.1:9000", none⟩ [] 0 none 0 rfl (by decide)

/-- Claim C2 (code bug in src/main.go line 87): a read that returns a
zero-length unit with no error makes the marker comparison evaluate the Go
slice `buf[0:-1]`, which is a slice-bounds panic, not a safe no-op: the loop
run ends in the panicked state. -/
theorem c2_empty_unit_panics :
    markerCheck [] = none ∧
    copyLoop ⟨true, true, false⟩ (fun _ => ⟨0, none⟩)
        [⟨[], some "10.0.0.1:9999", none⟩] 0 none 0 =
      .panicked ⟨[⟨some "10.0.0.1:9999", 0⟩], [], [], 0, some "10.0.0.1:9999"⟩ :=
  ⟨by decide, by decide⟩

/-- Claim C4 counterexample: the per-iteration transfer buffer size is not
65535 bytes. -/
theorem c4_counterexample : ¬ BufferLimit = 65535 := by
  decide

/-- Claim C4 amended: the per-iteration transfer buffer allocated by the
copy loops is exactly 131071 bytes (`2<<16 - 1`). -/
theorem c4_amended :
    BufferLimit = 131071 ∧ transferBuf.length = 131071 := by
  refine ⟨by decide, ?_⟩
  simp only [transferBuf, List.length_replicate]
  decide

/-- Claim C9 counterexample: an inbound datagram of exactly the two bytes
tilde-period does not terminate the receiving loop; the unit is written to
local output and the loop keeps running. -/
theorem c9_counterexample :
    (copyLoop ⟨true, true, false⟩ (fun _ => ⟨2, none⟩)
      [⟨[126, 46], some "198.51.100.7:4000", none⟩] 0 none 0).isFinished = false ∧
    (copyLoop ⟨true, true, false⟩ (fun _ => ⟨2, none⟩)
      [⟨[126, 46], some "198.51.100.7:4000", none⟩] 0 none 0).out.sends =
      [⟨[126, 46], Dest.bound, 2, none⟩] :=
  ⟨by decide, by decide⟩

/-- Claim C9 amended: when the inbound loop of a listen-mode datagram
session receives a first unit whose content excluding its final byte equals
the marker (for example the three-byte unit tilde-period-newline; a two-byte
tilde-period unit is instead forwarded), it terminates at once without
writing anything to local output, and the outbound loop is unaffected: its
result is computed solely from its own inputs. -/
theorem c9_amended_marker_stops_inbound_only (conReads : List ReadEvt)
    (stdoutWrites : Nat → WriteRes) (stdinReads : List ReadEvt)
    (conWrites : Nat → WriteRes) (e : ReadEvt) (rest : List ReadEvt)
    (hin : conReads = e :: rest) (hne : e.err = none)
    (hm : e.data.take (e.data.length - 1) = UDPDisconnectSequence) :
    (TransferPackets none conReads stdoutWrites stdinReads conWrites).inRes.isFinished
        = true ∧
    (TransferPackets none conReads stdoutWrites stdinReads conWrites).inRes.out.sends
        = [] ∧
    (TransferPackets none conReads stdoutWrites stdinReads conWrites).outRes =
      some (copyLoop ⟨false, false, true⟩ conWrites stdinReads 0 e.addr 0) := by
  subst hin
  have hmh := copyLoop_marker_head ⟨true, true, false⟩ stdoutWrites e rest 0 none 0 hne hm
  have hmsgs : (copyLoop ⟨true, true, false⟩ stdoutWrites (e :: rest) 0 none 0).out.msgs
      = (⟨e.addr, 0⟩ : Progress) :: [⟨none, 0⟩] := by
    rw [hmh]
    simp [LoopRes.out]
  rw [TransferPackets_listen_eq (e :: rest) stdoutWrites stdinReads conWrites _ _ hmsgs]
  exact ⟨by rw [hmh]; rfl, by rw [hmh]; rfl, rfl⟩

/-- Witness for C9's amended claim at a concrete listen-mode session. -/
theorem c9_amended_witness :
    (TransferPackets none [⟨[126, 46, 10], some "203.0.113.5:53", none⟩]
      (fun _ => ⟨0, none⟩) [⟨[104, 105], none, none⟩] (fun _ => ⟨2, none⟩)).inRes.isFinished
        = true ∧
    (TransferPackets none [⟨[126, 46, 10], some "203.0.113.5:53", none⟩]
      (fun _ => ⟨0, none⟩) [⟨[104, 105], none, none⟩] (fun _ => ⟨2, none⟩)).inRes.out.sends
        = [] ∧
    (TransferPackets none [⟨[126, 46, 10], some "203.0.113.5:53", none⟩]
      (fun _ => ⟨0, none⟩) [⟨[104, 105], none, none⟩] (fun _ => ⟨2, none⟩)).outRes =
      some (copyLoop ⟨false, false, true⟩ (fun _ => ⟨2, none⟩)
        [⟨[104, 105], none, none⟩] 0 (some "203.0.113.5:53") 0) :=
  c9_amended_marker_stops_inbound_only [⟨[126, 46, 10], some "203.0.113.5:53", none⟩]
    (fun _ => ⟨0, none⟩) [⟨[104, 105], none, none⟩] (fun _ => ⟨2, none⟩)
    ⟨[126, 46, 10], some "203.0.113.5:53", none⟩ [] rfl rfl (by decide)

/-- Claim C3: in a listen-mode datagram session the peer address is learned
exactly once, from the sender address of the first received unit: the
inbound loop emits exactly one address-only report, carrying that first
sender; the orchestrator hands exactly that address to the outbound loop;
and every outbound send goes to that address, whatever the sender addresses
of later inbound units are. -/
theorem c3_peer_address_learned_once (conReads : List ReadEvt)
    (stdoutWrites : Nat → WriteRes) (stdinReads : List ReadEvt)
    (conWrites : Nat → WriteRes) (e : ReadEvt) (rest : List ReadEvt) (A : Addr)
    (hin : conReads = e :: rest) (ha : e.addr = some A) :
    addrReports
        (TransferPackets none conReads stdoutWrites stdinReads conWrites).inRes.out.msgs
      = [⟨some A, 0⟩] ∧
    (TransferPackets none conReads stdoutWrites stdinReads conWrites).raUsed = some A ∧
    (TransferPackets none conReads stdoutWrites stdinReads conWrites).outRes =
      some (copyLoop ⟨false, false, true⟩ conWrites stdinReads 0 (some A) 0) ∧
    ∀ s ∈ (copyLoop ⟨false, false, true⟩ conWrites stdinReads 0 (some A) 0).out.sends,
      s.dest = Dest.toAddr (some A) := by
  subst hin
  rcases copyLoop_listen_first stdoutWrites e rest A ha with ⟨t, hmsgs, _, haddrt⟩
  rw [TransferPackets_listen_eq (e :: rest) stdoutWrites stdinReads conWrites _ _ hmsgs]
  refine ⟨?_, rfl, rfl, ?_⟩
  · rw [hmsgs]
    simp only [addrReports] at haddrt ⊢
    simp [haddrt]
  · rcases copyLoop_noLearn ⟨false, false, true⟩ conWrites stdinReads 0 (some A) 0
      (Or.inl rfl) with ⟨_, _, h3⟩
    intro s hs
    simpa using h3 s hs

/-- Witness for C3: a two-unit listen session whose second inbound unit
comes from a different sender; the learned address stays the first one and
the outbound send goes to it. -/
theorem c3_witness :
    addrReports
        (TransferPackets none
          [⟨[104, 105], some "9.9.9.9:1111", none⟩, ⟨[119], some "8.8.8.8:2222", none⟩]
          (fun _ => ⟨1, none⟩) [⟨[111], none, none⟩, ⟨[], none, some IOErr.eof⟩]
          (fun _ => ⟨1, none⟩)).inRes.out.msgs
      = [⟨some "9.9.9.9:1111", 0⟩] ∧
    (TransferPackets none
        [⟨[104, 105], some "9.9.9.9:1111", none⟩, ⟨[119], some "8.8.8.8:2222", none⟩]
        (fun _ => ⟨1, none⟩) [⟨[111], none, none⟩, ⟨[], none, some IOErr.eof⟩]
        (fun _ => ⟨1, none⟩)).raUsed = some "9.9.9.9:1111" ∧
    (TransferPackets none
        [⟨[104, 105], some "9.9.9.9:1111", none⟩, ⟨[119], some "8.8.8.8:2222", none⟩]
        (fun _ => ⟨1, none⟩) [⟨[111], none, none⟩, ⟨[], none, some IOErr.eof⟩]
        (fun _ => ⟨1, none⟩)).outRes =
      some (copyLoop ⟨false, false, true⟩ (fun _ => ⟨1, none⟩)
        [⟨[111], none, none⟩, ⟨[], none, some IOErr.eof⟩] 0 (some "9.9.9.9:1111") 0) ∧
    ∀ s ∈ (copyLoop ⟨false, false, true⟩ (fun _ => ⟨1, none⟩)
        [⟨[111], none, none⟩, ⟨[], none, some IOErr.eof⟩] 0
        (some "9.9.9.9:1111") 0).out.sends,
      s.dest = Dest.toAddr (some "9.9.9.9:1111") :=
  c3_peer_address_learned_once
    [⟨[104, 105], some "9.9.9.9:1111", none⟩, ⟨[119], some "8.8.8.8:2222", none⟩]
    (fun _ => ⟨1, none⟩) [⟨[111], none, none⟩, ⟨[], none, some IOErr.eof⟩]
    (fun _ => ⟨1, none⟩) ⟨[104, 105], some "9.9.9.9:1111", none⟩
    [⟨[119], some "8.8.8.8:2222", none⟩] "9.9.9.9:1111" rfl rfl

/-- Claim C5: in a listen-mode datagram session, either the orchestrator is
still blocked waiting for the address-only report (and the outbound loop was
never launched), or its trace shows the receive of the address-only report
strictly before the launch of the outbound loop, and the outbound loop runs
with exactly the reported address. -/
theorem c5_outbound_launch_after_addr_report (conReads : List ReadEvt)
    (stdoutWrites : Nat → WriteRes) (stdinReads : List ReadEvt)
    (conWrites : Nat → WriteRes) :
    (TransferPackets none conReads stdoutWrites stdinReads conWrites).trace
        = [.launchInbound none] ∧
    (TransferPackets none conReads stdoutWrites stdinReads conWrites).outRes = none ∨
    ∃ p tl,
      (TransferPackets none conReads stdoutWrites stdinReads conWrites).trace =
        [.launchInbound none, .recvAddr p, .launchOutbound p.remoteAddr] ++ tl ∧
      (TransferPackets none conReads stdoutWrites stdinReads conWrites).raUsed =
        p.remoteAddr ∧
      (TransferPackets none conReads stdoutWrites stdinReads conWrites).outRes =
        some (copyLoop ⟨false, false, true⟩ conWrites stdinReads 0 p.remoteAddr 0) := by
  cases hmsgs : (copyLoop ⟨true, true, false⟩ stdoutWrites conReads 0 none 0).out.msgs with
  | nil =>
    left
    constructor <;> simp [TransferPackets, hmsgs]
  | cons p t =>
    right
    rw [TransferPackets_listen_eq conReads stdoutWrites stdinReads conWrites p t hmsgs]
    exact ⟨p, _, rfl, rfl, rfl⟩

/-- Claim C10: in listen mode the learning branch runs before the error and
marker checks: when the first read fails, or its unit is accepted by the
marker comparison, the inbound loop still emits exactly one address-only
report (carrying that read's sender address, possibly nil) followed only by
its final byte-count report, and the orchestrator receives it and launches
the outbound loop with that address. -/
theorem c10_learning_before_error_and_marker_checks (conReads : List ReadEvt)
    (stdoutWrites : Nat → WriteRes) (stdinReads : List ReadEvt)
    (conWrites : Nat → WriteRes) (e : ReadEvt) (rest : List ReadEvt)
    (hin : conReads = e :: rest)
    (hcase : (∃ er, e.err = some er) ∨ e.err = none ∧ markerCheck e.data = some true) :
    (TransferPackets none conReads stdoutWrites stdinReads conWrites).inRes.out.msgs
        = [⟨e.addr, 0⟩, ⟨none, 0⟩] ∧
    (∃ tl, (TransferPackets none conReads stdoutWrites stdinReads conWrites).trace =
      [.launchInbound none, .recvAddr ⟨e.addr, 0⟩, .launchOutbound e.addr] ++ tl) ∧
    (TransferPackets none conReads stdoutWrites stdinReads conWrites).raUsed = e.addr ∧
    (TransferPackets none conReads stdoutWrites stdinReads conWrites).outRes =
      some (copyLoop ⟨false, false, true⟩ conWrites stdinReads 0 e.addr 0) := by
  subst hin
  have hmsgs : (copyLoop ⟨true, true, false⟩ stdoutWrites (e :: rest) 0 none 0).out.msgs
      = (⟨e.addr, 0⟩ : Progress) :: [⟨none, 0⟩] := by
    rcases hcase with ⟨er, he⟩ | ⟨hne, hm⟩
    · rw [copyLoop_readErr_head ⟨true, true, false⟩ stdoutWrites e rest 0 none 0 er he]
      simp [LoopRes.out]
    · rw [copyLoop_markerTrue_head ⟨true, true, false⟩ stdoutWrites e rest 0 none 0 hne hm]
      simp [LoopRes.out]
  rw [TransferPackets_listen_eq (e :: rest) stdoutWrites stdinReads conWrites _ _ hmsgs]
  exact ⟨hmsgs, ⟨_, rfl⟩, rfl, rfl⟩

/-- Witness for C10: the first read fails before any datagram arrived, so
the address-only report carries a nil address, and the outbound loop is
still launched (with the nil address). -/
theorem c10_witness :
    (TransferPackets none [⟨[], none, some (IOErr.other "read: connection refused")⟩]
        (fun _ => ⟨0, none⟩) [⟨[111], none, none⟩] (fun _ => ⟨1, none⟩)).inRes.out.msgs
        = [⟨none, 0⟩, ⟨none, 0⟩] ∧
    (∃ tl, (TransferPackets none [⟨[], none, some (IOErr.other "read: connection refused")⟩]
        (fun _ => ⟨0, none⟩) [⟨[111], none, none⟩] (fun _ => ⟨1, none⟩)).trace =
      [.launchInbound none, .recvAddr ⟨none, 0⟩, .launchOutbound none] ++ tl) ∧
    (TransferPackets none [⟨[], none, some (IOErr.other "read: connection refused")⟩]
        (fun _ => ⟨0, none⟩) [⟨[111], none, none⟩] (fun _ => ⟨1, none⟩)).raUsed = none ∧
    (TransferPackets none [⟨[], none, some (IOErr.other "read: connection refused")⟩]
        (fun _ => ⟨0, none⟩) [⟨[111], none, none⟩] (fun _ => ⟨1, none⟩)).outRes =
      some (copyLoop ⟨false, false, true⟩ (fun _ => ⟨1, none⟩) [⟨[111], none, none⟩] 0
        none 0) :=
  c10_learning_before_error_and_marker_checks
    [⟨[], none, some (IOErr.other "read: connection refused")⟩] (fun _ => ⟨0, none⟩)
    [⟨[111], none, none⟩] (fun _ => ⟨1, none⟩)
    ⟨[], none, some (IOErr.other "read: connection refused")⟩ [] rfl
    (Or.inl ⟨IOErr.other "read: connection refused", rfl⟩)

/-- The `written` total `io.Copy` returns equals the sum of the per-write
written-byte counts of the writes it performed. -/
theorem ioCopy_done_sum (writes : Nat → WriteRes) (reads : List StreamEvt) :
    ∀ (wIdx n : Nat) (err : Option IOErr) (rets : List Nat),
      ioCopy writes reads wIdx = .done n err rets → n = rets.sum := by
  induction reads with
  | nil =>
    intro wIdx n err rets h
    exact absurd h (by simp [ioCopy])
  | cons e rest ih =>
    intro wIdx n err rets h
    simp only [ioCopy] at h
    by_cases hnr : 0 < e.data.length
    · simp only [if_pos hnr] at h
      cases hc : (if e.data.length < (writes wIdx).n then some IOErr.invalidWrite
          else (writes wIdx).err) with
      | some er =>
        simp only [hc, CopyRes.done.injEq] at h
        rcases h with ⟨rfl, _, rfl⟩
        simp
      | none =>
        simp only [hc] at h
        by_cases hne : e.data.length ≠ (if e.data.length < (writes wIdx).n then 0
            else (writes wIdx).n)
        · simp only [if_pos hne, CopyRes.done.injEq] at h
          rcases h with ⟨rfl, _, rfl⟩
          simp
        · simp only [if_neg hne] at h
          cases he : e.err with
          | some er =>
            simp only [he, CopyRes.done.injEq] at h
            rcases h with ⟨rfl, _, rfl⟩
            simp
          | none =>
            simp only [he] at h
            cases hrec : ioCopy writes rest (wIdx + 1) with
            | starved w r =>
              rw [hrec] at h
              simp [CopyRes.addWritten] at h
            | done w2 e2 r2 =>
              rw [hrec] at h
              simp only [CopyRes.addWritten, CopyRes.done.injEq] at h
              rcases h with ⟨rfl, _, rfl⟩
              have := ih (wIdx + 1) w2 e2 r2 hrec
              simp [this]
    · simp only [if_neg hnr] at h
      cases he : e.err with
      | some er =>
        simp only [he, CopyRes.done.injEq] at h
        rcases h with ⟨rfl, _, rfl⟩
        simp
      | none =>
        simp only [he] at h
        exact ih wIdx n err rets h

/-- Claim C8: in a datagram copy loop a read failure always breaks the loop
without writing; an `io.EOF` is not logged while any other failure is logged
with the current (possibly freshly learned, possibly still nil) `ra`; and at
the session level such a failure terminates only its own direction: the
engine still returns normally (no error value) once the other loop finishes
on its own inputs. -/
theorem c8_read_failure_local_only :
    (∀ (cfg : LoopCfg) (writes : Nat → WriteRes) (e : ReadEvt) (rest : List ReadEvt)
        (wIdx : Nat) (ra : Option Addr) (bytes : Nat) (er : IOErr), e.err = some er →
      (copyLoop cfg writes (e :: rest) wIdx ra bytes).isFinished = true ∧
      (copyLoop cfg writes (e :: rest) wIdx ra bytes).out.sends = [] ∧
      (copyLoop cfg writes (e :: rest) wIdx ra bytes).out.logs =
        (if er = IOErr.eof then []
         else [(if cfg.rUdp && cfg.rRemoteNil && ra.isNone then e.addr else ra, er)])) ∧
    (∀ (a : Addr) (e : ReadEvt) (er : IOErr) (stdoutWrites : Nat → WriteRes)
        (stdinReads : List ReadEvt) (conWrites : Nat → WriteRes), e.err = some er →
      (copyLoop ⟨false, false, false⟩ conWrites stdinReads 0 (some a) 0).isFinished = true →
      (TransferPackets (some a) [e] stdoutWrites stdinReads conWrites).returned = true ∧
      (TransferPackets (some a) [e] stdoutWrites stdinReads conWrites).outRes =
        some (copyLoop ⟨false, false, false⟩ conWrites stdinReads 0 (some a) 0)) := by
  constructor
  · intro cfg writes e rest wIdx ra bytes er he
    rw [copyLoop_readErr_head cfg writes e rest wIdx ra bytes er he]
    exact ⟨rfl, rfl, rfl⟩
  · intro a e er stdoutWrites stdinReads conWrites he hfin
    rw [TransferPackets_dial_eq a [e] stdoutWrites stdinReads conWrites]
    refine ⟨?_, rfl⟩
    have h1 : (copyLoop ⟨true, false, false⟩ stdoutWrites [e] 0 (some a) 0).out.msgs =
        [⟨none, 0⟩] := by
      rw [copyLoop_readErr_head ⟨true, false, false⟩ stdoutWrites e [] 0 (some a) 0 er he]
      simp [LoopRes.out]
    rcases copyLoop_noLearn ⟨false, false, false⟩ conWrites stdinReads 0 (some a) 0
      (Or.inr rfl) with ⟨h2, _, _⟩
    rw [hfin, if_pos rfl] at h2
    simp [h1, h2]

/-- Witness for C8: the inbound loop of a dial-mode datagram session fails
with a non-EOF read error; the session still returns once the outbound loop
hits end-of-data on local input. -/
theorem c8_witness :
    (TransferPackets (some "203.0.113.9:4242")
        [⟨[], none, some (IOErr.other "read: connection reset")⟩] (fun _ => ⟨0, none⟩)
        [⟨[], none, some IOErr.eof⟩] (fun _ => ⟨0, none⟩)).returned = true ∧
    (TransferPackets (some "203.0.113.9:4242")
        [⟨[], none, some (IOErr.other "read: connection reset")⟩] (fun _ => ⟨0, none⟩)
        [⟨[], none, some IOErr.eof⟩] (fun _ => ⟨0, none⟩)).outRes =
      some (copyLoop ⟨false, false, false⟩ (fun _ => ⟨0, none⟩)
        [⟨[], none, some IOErr.eof⟩] 0 (some "203.0.113.9:4242") 0) :=
  c8_read_failure_local_only.2 "203.0.113.9:4242"
    ⟨[], none, some (IOErr.other "read: connection reset")⟩
    (IOErr.other "read: connection reset") (fun _ => ⟨0, none⟩)
    [⟨[], none, some IOErr.eof⟩] (fun _ => ⟨0, none⟩) rfl (by decide)

/-- Claim C6: a session invocation returns exactly when both directions'
copy loops have terminated and their final byte-count reports were received:
for `TransferStreams` unconditionally, and for `TransferPackets` in dial
mode and in listen mode (given a first inbound unit with a real sender
address, as UDP delivers). -/
theorem c6_session_returns_iff_both_loops_done :
    (∀ (remoteAddr : Addr) (conReads : List StreamEvt) (stdoutWrites : Nat → WriteRes)
        (stdinReads : List StreamEvt) (conWrites : Nat → WriteRes),
      (TransferStreams remoteAddr conReads stdoutWrites stdinReads conWrites).isSome =
        ((ioCopy stdoutWrites conReads 0).isDone && (ioCopy conWrites stdinReads 0).isDone)) ∧
    (∀ (a : Addr) (conReads : List ReadEvt) (stdoutWrites : Nat → WriteRes)
        (stdinReads : List ReadEvt) (conWrites : Nat → WriteRes),
      (TransferPackets (some a) conReads stdoutWrites stdinReads conWrites).returned =
        ((TransferPackets (some a) conReads stdoutWrites stdinReads conWrites).inRes.isFinished
          && (TransferPackets (some a) conReads stdoutWrites stdinReads conWrites).outFinished)) ∧
    (∀ (conReads : List ReadEvt) (stdoutWrites : Nat → WriteRes) (stdinReads : List ReadEvt)
        (conWrites : Nat → WriteRes) (e : ReadEvt) (rest : List ReadEvt) (A : Addr),
      conReads = e :: rest → e.addr = some A →
      (TransferPackets none conReads stdoutWrites stdinReads conWrites).returned =
        ((TransferPackets none conReads stdoutWrites stdinReads conWrites).inRes.isFinished
          && (TransferPackets none conReads stdoutWrites stdinReads conWrites).outFinished)) := by
  refine ⟨?_, ?_, ?_⟩
  · intro remoteAddr conReads stdoutWrites stdinReads conWrites
    cases h1 : ioCopy stdoutWrites conReads 0 <;>
      cases h2 : ioCopy conWrites stdinReads 0 <;>
        simp [TransferStreams, streamCopy, h1, h2, CopyRes.isDone]
  · intro a conReads stdoutWrites stdinReads conWrites
    rw [TransferPackets_dial_eq a conReads stdoutWrites stdinReads conWrites]
    rcases copyLoop_noLearn ⟨true, false, false⟩ stdoutWrites conReads 0 (some a) 0
      (Or.inr rfl) with ⟨hm1, _, _⟩
    rcases copyLoop_noLearn ⟨false, false, false⟩ conWrites stdinReads 0 (some a) 0
      (Or.inr rfl) with ⟨hm2, _, _⟩
    simp only [PacketsRun.outFinished]
    rw [hm1, hm2]
    cases hf1 : (copyLoop ⟨true, false, false⟩ stdoutWrites conReads 0 (some a) 0).isFinished <;>
      cases hf2 : (copyLoop ⟨false, false, false⟩ conWrites stdinReads 0 (some a) 0).isFinished <;>
        simp [hf1, hf2]
  · intro conReads stdoutWrites stdinReads conWrites e rest A hin ha
    subst hin
    rcases copyLoop_listen_first stdoutWrites e rest A ha with ⟨t, hmsgs, hlen, _⟩
    rw [TransferPackets_listen_eq (e :: rest) stdoutWrites stdinReads conWrites _ _ hmsgs]
    rcases copyLoop_noLearn ⟨false, false, true⟩ conWrites stdinReads 0 (some A) 0
      (Or.inl rfl) with ⟨hm2, _, _⟩
    simp only [PacketsRun.outFinished, hlen]
    rw [hm2]
    cases hf1 : (copyLoop ⟨true, true, false⟩ stdoutWrites (e :: rest) 0 none 0).isFinished <;>
      cases hf2 : (copyLoop ⟨false, false, true⟩ conWrites stdinReads 0 (some A) 0).isFinished <;>
        simp [hf1, hf2]

/-- Witness for C6 at a concrete listen-mode session in which both loops
finish. -/
theorem c6_witness :
    (TransferPackets none [⟨[104], some "192.0.2.7:1000", none⟩, ⟨[], none, some IOErr.eof⟩]
        (fun _ => ⟨1, none⟩) [⟨[], none, some IOErr.eof⟩] (fun _ => ⟨1, none⟩)).returned =
      ((TransferPackets none [⟨[104], some "192.0.2.7:1000", none⟩, ⟨[], none, some IOErr.eof⟩]
          (fun _ => ⟨1, none⟩) [⟨[], none, some IOErr.eof⟩] (fun _ => ⟨1, none⟩)).inRes.isFinished
        && (TransferPackets none
            [⟨[104], some "192.0.2.7:1000", none⟩, ⟨[], none, some IOErr.eof⟩]
            (fun _ => ⟨1, none⟩) [⟨[], none, some IOErr.eof⟩]
            (fun _ => ⟨1, none⟩)).outFinished) :=
  c6_session_returns_iff_both_loops_done.2.2
    [⟨[104], some "192.0.2.7:1000", none⟩, ⟨[], none, some IOErr.eof⟩] (fun _ => ⟨1, none⟩)
    [⟨[], none, some IOErr.eof⟩] (fun _ => ⟨1, none⟩)
    ⟨[104], some "192.0.2.7:1000", none⟩ [⟨[], none, some IOErr.eof⟩] "192.0.2.7:1000"
    rfl rfl

/-- Claim C7: the byte count in a direction's final progress report equals
the total bytes actually transferred in that direction: for a stream
direction the `io.Copy` result equals the sum of its per-write counts and is
reported as a `uint64`; for a datagram direction a normally finished loop's
final report carries exactly the bytes of its successful writes (as a
`uint64`, so exactly whenever the total fits in 64 bits). -/
theorem c7_reported_byte_counts :
    (∀ (writes : Nat → WriteRes) (reads : List StreamEvt) (remoteAddr : Addr)
        (n : Nat) (err : Option IOErr) (rets : List Nat),
      ioCopy writes reads 0 = .done n err rets →
      n = rets.sum ∧
      (streamCopy remoteAddr reads writes).report = some ⟨none, n % 2 ^ 64⟩) ∧
    (∀ (cfg : LoopCfg) (writes : Nat → WriteRes) (reads : List ReadEvt)
        (wIdx : Nat) (ra : Option Addr) (out : LoopOut),
      copyLoop cfg writes reads wIdx ra 0 = .finished out →
      out.bytes = successfulBytes out.sends % 2 ^ 64 ∧
      (∃ pre, out.msgs = pre ++ [⟨none, out.bytes⟩]) ∧
      (successfulBytes out.sends < 2 ^ 64 → out.bytes = successfulBytes out.sends)) := by
  constructor
  · intro writes reads remoteAddr n err rets h
    exact ⟨ioCopy_done_sum writes reads 0 n err rets h, by simp [streamCopy, h]⟩
  · intro cfg writes reads wIdx ra out h
    rcases copyLoop_finished_bytes cfg writes reads wIdx ra 0 out (by norm_num) h with
      ⟨h1, h2⟩
    rw [Nat.zero_add] at h1
    refine ⟨h1, h2, fun hlt => ?_⟩
    rw [h1]
    exact Nat.mod_eq_of_lt hlt

/-- Witness for C7: a stream direction that copied one five-byte chunk and a
datagram direction that forwarded one two-byte unit. -/
theorem c7_witness :
    ((5 : Nat) = List.sum [5] ∧
      (streamCopy "198.51.100.2:8080" [⟨[1, 2, 3, 4, 5], none⟩, ⟨[], some IOErr.eof⟩]
        (fun _ => ⟨5, none⟩)).report = some ⟨none, 5 % 2 ^ 64⟩) ∧
    ((LoopOut.mk [⟨none, 2⟩] [] [⟨[104, 105], Dest.bound, 2, none⟩] 2 (some "R")).bytes =
        successfulBytes
          (LoopOut.mk [⟨none, 2⟩] [] [⟨[104, 105], Dest.bound, 2, none⟩] 2
            (some "R")).sends % 2 ^ 64 ∧
      (∃ pre, (LoopOut.mk [⟨none, 2⟩] [] [⟨[104, 105], Dest.bound, 2, none⟩] 2
            (some "R")).msgs =
          pre ++ [⟨none, (LoopOut.mk [⟨none, 2⟩] [] [⟨[104, 105], Dest.bound, 2, none⟩] 2
            (some "R")).bytes⟩]) ∧
      (successfulBytes
          (LoopOut.mk [⟨none, 2⟩] [] [⟨[104, 105], Dest.bound, 2, none⟩] 2
            (some "R")).sends < 2 ^ 64 →
        (LoopOut.mk [⟨none, 2⟩] [] [⟨[104, 105], Dest.bound, 2, none⟩] 2
            (some "R")).bytes =
          successfulBytes
            (LoopOut.mk [⟨none, 2⟩] [] [⟨[104, 105], Dest.bound, 2, none⟩] 2
              (some "R")).sends)) :=
  ⟨c7_reported_byte_counts.1 (fun _ => ⟨5, none⟩)
      [⟨[1, 2, 3, 4, 5], none⟩, ⟨[], some IOErr.eof⟩] "198.51.100.2:8080" 5 none [5]
      (by decide),
   c7_reported_byte_counts.2 ⟨true, false, false⟩ (fun _ => ⟨2, none⟩)
      [⟨[104, 105], some "X", none⟩, ⟨[], none, some IOErr.eof⟩] 0 (some "R")
      (LoopOut.mk [⟨none, 2⟩] [] [⟨[104, 105], Dest.bound, 2, none⟩] 2 (some "R"))
      (by decide)⟩

end GoNetcat
